import Mathlib

/-!
Shallow embedding of the form-validation hook of the `react-poke-api`
repository (`src/hooks/useFormValidation.js`, plus the second hook variant
shipped in the repository).  JavaScript objects used as string-keyed maps
are embedded as association lists with JS spread-update semantics; field
values are embedded as a small dynamic-value type with JS truthiness.
-/

set_option autoImplicit false

/-- A JavaScript value as it can appear in a form field: a string (text
inputs), a number, a boolean (checkboxes), a file list (file inputs), or
`undefined` (absent key). -/
inductive Value where
  | str (s : String)
  | num (n : Int)
  | bool (b : Bool)
  | files (fs : List String)
  | undefined
  deriving DecidableEq, Repr

/-- JS truthiness of a `Value`: empty string, zero, `false` and `undefined`
are falsy; every object (in particular a file list, even empty) is truthy. -/
def Value.truthy : Value → Bool
  | .str s => s ≠ ""
  | .num n => n ≠ 0
  | .bool b => b
  | .files _ => true
  | .undefined => false

/-- String-keyed JS object embedded as an association list. -/
abbrev JsObj (α : Type) : Type := List (String × α)

/-- `obj[key]`: first entry with the given key, `none` when absent
(JS `undefined`). -/
def getKey {α : Type} : JsObj α → String → Option α
  | [], _ => none
  | (k, v) :: rest, key => if k = key then some v else getKey rest key

/-- Spread update `{...prev, [name]: v}`: replaces the entry in place when
the key exists, appends it otherwise (JS key-order semantics). -/
def setKey {α : Type} : JsObj α → String → α → JsObj α
  | [], key, v => [(key, v)]
  | (k, w) :: rest, key, v =>
      if k = key then (key, v) :: rest else (k, w) :: setKey rest key v

/-- The `values` mapping of the form. -/
abbrev Values : Type := JsObj Value

/-- Reading `values[name]` in JS yields `undefined` for an absent key. -/
def valuesGet (values : Values) (name : String) : Value :=
  (getKey values name).getD .undefined

/-- One validation rule: a function from the candidate value to an error
message, empty string meaning valid. -/
abbrev Rule : Type := Value → String

/-- The `validationRules` mapping: field name to ordered rule list. -/
abbrev Rules : Type := JsObj (List Rule)

/-- The mutable state owned by the `useFormValidation` hook: `values`,
`errors`, `touched`, `isSubmitting`, `isDirty`. -/
structure FormState where
  values : Values
  errors : JsObj String
  touched : JsObj Bool
  isSubmitting : Bool
  isDirty : Bool

/-- The state the hook starts in: `useState(initialValues)` for values and
empty objects / false flags for the rest. -/
def initState (initialValues : Values) : FormState :=
  { values := initialValues
    errors := []
    touched := []
    isSubmitting := false
    isDirty := false }

/-- The rule loop of `validateField`: runs each rule in order and returns
the first truthy (non-empty) result, empty string when all pass. -/
def firstError : List Rule → Value → String
  | [], _ => ""
  | r :: rest, v =>
      let error := r v
      if error ≠ "" then error else firstError rest v

/-- `validateField(name, value)`: looks up `validationRules[name]`; when no
rule list is registered returns `""`, otherwise runs the rules in declared
order and returns the first non-empty message. -/
def validateField (validationRules : Rules) (name : String) (value : Value) : String :=
  match getKey validationRules name with
  | none => ""
  | some rules => firstError rules value

/-- The `target` of an input-like change event: its `type` attribute, its
`checked` flag, its `files` collection, and its string `value`. -/
structure EventTarget where
  type : String
  checked : Bool
  files : List String
  value : String
  deriving DecidableEq, Repr

/-- The payload `handleChange(name)` can receive: an event object carrying a
`target`, or a raw value. -/
inductive ChangePayload where
  | event (target : EventTarget)
  | raw (v : Value)
  deriving DecidableEq, Repr

/-- Value extraction of `handleChange`: checkbox targets yield their
`checked` boolean, file targets their `files` collection, every other event
target its string `value`; a raw payload is used as is. -/
def extractValue : ChangePayload → Value
  | .event target =>
      if target.type = "checkbox" then .bool target.checked
      else if target.type = "file" then .files target.files
      else .str target.value
  | .raw v => v

/-- `handleChange(name)(eventOrValue)` of the richer hook variant: stores
the extracted value, marks the field touched, sets `isDirty`, and stores
`validateField(name, value)` in `errors[name]`. -/
def handleChange (validationRules : Rules) (name : String)
    (eventOrValue : ChangePayload) (s : FormState) : FormState :=
  let value := extractValue eventOrValue
  { s with
    values := setKey s.values name value
    touched := setKey s.touched name true
    isDirty := true
    errors := setKey s.errors name (validateField validationRules name value) }

/-- `handleBlur(name)()`: marks the field touched and revalidates it against
the current stored value. -/
def handleBlur (validationRules : Rules) (name : String) (s : FormState) : FormState :=
  { s with
    touched := setKey s.touched name true
    errors := setKey s.errors name
      (validateField validationRules name (valuesGet s.values name)) }

/-- `getFieldState(name)` of the richer hook variant
(`src/hooks/useFormValidation.js`): `""` when the field is untouched, else
`"error"` when `errors[name]` is truthy, else `"success"` when
`values[name]` is truthy, else `""`. -/
def getFieldState (s : FormState) (name : String) : String :=
  if ¬ ((getKey s.touched name).getD false) then ""
  else if (getKey s.errors name).getD "" ≠ "" then "error"
  else if (valuesGet s.values name).truthy then "success"
  else ""

/-- `getFieldState(name)` of the second hook variant: `"neutral"` when the
field is untouched, else `"error"` when `errors[name]` is truthy, else
`"success"`. -/
def getFieldState003 (s : FormState) (name : String) : String :=
  if ¬ ((getKey s.touched name).getD false) then "neutral"
  else if (getKey s.errors name).getD "" ≠ "" then "error"
  else "success"

/-- The `forEach` body of `validateAll` building `newErrors`: for each
registered field, `validateField` it against the current values and record
the message only when it is non-empty (`if (error) newErrors[name] = error`). -/
def collectErrors (validationRules : Rules) (values : Values) : Rules → JsObj String
  | [] => []
  | (name, _) :: rest =>
      let error := validateField validationRules name (valuesGet values name)
      if error ≠ "" then (name, error) :: collectErrors validationRules values rest
      else collectErrors validationRules values rest

/-- `validateAll()`: rebuilds `touched` as exactly the registered fields
(all true) and `errors` as exactly the currently failing registered fields,
and returns whether the new error object is empty. -/
def validateAll (validationRules : Rules) (s : FormState) : Bool × FormState :=
  let newTouched : JsObj Bool := validationRules.map (fun p => (p.1, true))
  let newErrors := collectErrors validationRules s.values validationRules
  (newErrors.isEmpty, { s with touched := newTouched, errors := newErrors })

/-- Observable outcome of one invocation of the handler returned by
`handleSubmit(onSubmit)`: the argument lists `onSubmit` was invoked with,
the messages logged by the `catch` block, the `isSubmitting` flag before
the call, while validating/awaiting, and after, whether a failure escaped
to the caller, and the final state. -/
structure SubmitOutcome where
  calls : List Values
  logged : List String
  submittingTrace : List Bool
  raised : Bool
  finalState : FormState

/-- The `try { await onSubmit(values) } catch (error) { console.error(...) }`
block: a failure of the callback is logged and swallowed, never re-raised. -/
def tryCatchSwallow (outcome : Except String Unit) : Bool × List String :=
  match outcome with
  | .ok _ => (false, [])
  | .error e => (false, [e])

/-- One run of the handler returned by `handleSubmit(onSubmit)` of the
richer hook variant, with the opaque callback modelled by its outcome
(`.ok ()` for a normal return, `.error e` for a raised failure): sets
`isSubmitting`, runs `validateAll()`, invokes the callback with the current
`values` only when valid (catching any failure), and finally clears
`isSubmitting`.  The invalid branch's DOM scroll/focus side effect has no
state footprint and is omitted. -/
def handleSubmitRun (validationRules : Rules) (onSubmitOutcome : Except String Unit)
    (s : FormState) : SubmitOutcome :=
  let s1 : FormState := { s with isSubmitting := true }
  let vres := validateAll validationRules s1
  let isFormValid := vres.1
  let s2 := vres.2
  let callResult := if isFormValid then tryCatchSwallow onSubmitOutcome else (false, [])
  { calls := if isFormValid then [s2.values] else []
    logged := callResult.2
    submittingTrace := [s.isSubmitting, s1.isSubmitting, false]
    raised := callResult.1
    finalState := { s2 with isSubmitting := false } }

/-- `reset()`: restores `values` to the construction-time `initialValues`,
clears `errors` and `touched`, and clears both flags. -/
def reset (initialValues : Values) (s : FormState) : FormState :=
  { s with
    values := initialValues
    errors := []
    touched := []
    isSubmitting := false
    isDirty := false }

/-- `setFieldValue(name, value)`: stores the value and sets `isDirty`,
running no validation. -/
def setFieldValue (name : String) (value : Value) (s : FormState) : FormState :=
  { s with
    values := setKey s.values name value
    isDirty := true }

/-- `setFieldError(name, error)`: stores the message and marks the field
touched, leaving `values` alone. -/
def setFieldError (name : String) (error : String) (s : FormState) : FormState :=
  { s with
    errors := setKey s.errors name error
    touched := setKey s.touched name true }

/-! ### Basic association-list lemmas -/

theorem getKey_setKey_self {α : Type} (l : JsObj α) (key : String) (v : α) :
    getKey (setKey l key v) key = some v := by
  induction l with
  | nil => simp [getKey, setKey]
  | cons p rest ih =>
      obtain ⟨k, w⟩ := p
      by_cases h : k = key <;> simp [getKey, setKey, h, ih]

theorem getKey_setKey_other {α : Type} (l : JsObj α) (key k : String) (v : α)
    (h : k ≠ key) : getKey (setKey l key v) k = getKey l k := by
  induction l with
  | nil => simp [getKey, setKey, Ne.symm h]
  | cons p rest ih =>
      obtain ⟨k', w⟩ := p
      by_cases h' : k' = key
      · subst h'
        simp [getKey, setKey, Ne.symm h]
      · simp only [setKey, if_neg h']
        by_cases h'' : k' = k <;> simp [getKey, h'', ih]

theorem getKey_map_const (l : Rules) (key : String) :
    getKey (l.map (fun p => (p.1, true))) key =
      (getKey l key).map (fun _ => true) := by
  induction l with
  | nil => simp [getKey]
  | cons p rest ih =>
      obtain ⟨k, w⟩ := p
      by_cases h : k = key <;> simp [getKey, h, ih]

/-! ### Rule-evaluation lemmas -/

theorem firstError_of_all_empty (rules : List Rule) (v : Value)
    (h : ∀ r ∈ rules, r v = "") : firstError rules v = "" := by
  induction rules with
  | nil => rfl
  | cons r rest ih =>
      have hr : r v = "" := h r (by simp)
      simp [firstError, hr]
      exact ih (fun r' hr' => h r' (by simp [hr']))

theorem firstError_first_nonempty (l₁ : List Rule) (r : Rule) (l₂ : List Rule)
    (v : Value) (h₁ : ∀ r' ∈ l₁, r' v = "") (hr : r v ≠ "") :
    firstError (l₁ ++ r :: l₂) v = r v := by
  induction l₁ with
  | nil => simp [firstError, hr]
  | cons r' rest ih =>
      have hr' : r' v = "" := h₁ r' (by simp)
      simp [firstError, hr']
      exact ih (fun r'' hr'' => h₁ r'' (by simp [hr'']))

/-! ### validateAll error-collection lemmas -/

theorem collectErrors_getKey (R : Rules) (V : Values) (l : Rules) (f : String) :
    getKey (collectErrors R V l) f =
      if (getKey l f).isSome ∧ validateField R f (valuesGet V f) ≠ ""
      then some (validateField R f (valuesGet V f)) else none := by
  induction l with
  | nil => simp [collectErrors, getKey]
  | cons p rest ih =>
      obtain ⟨name, rs⟩ := p
      by_cases hn : name = f
      · subst hn
        by_cases he : validateField R name (valuesGet V name) = ""
        · simp [collectErrors, he, ih]
        · simp [collectErrors, he, getKey]
      · by_cases he : validateField R name (valuesGet V name) = ""
        · simp [collectErrors, he, ih, getKey, hn]
        · simp [collectErrors, he, ih, getKey, hn]

theorem collectErrors_eq_nil_iff (R : Rules) (V : Values) (l : Rules) :
    collectErrors R V l = [] ↔
      ∀ p ∈ l, validateField R p.1 (valuesGet V p.1) = "" := by
  induction l with
  | nil => simp [collectErrors]
  | cons p rest ih =>
      obtain ⟨name, rs⟩ := p
      by_cases he : validateField R name (valuesGet V name) = ""
      · simp [collectErrors, he, ih]
      · simp [collectErrors, he]

theorem collectErrors_mem_ne (R : Rules) (V : Values) (l : Rules) :
    ∀ p ∈ collectErrors R V l, p.2 ≠ "" := by
  induction l with
  | nil => simp [collectErrors]
  | cons q rest ih =>
      obtain ⟨name, rs⟩ := q
      by_cases he : validateField R name (valuesGet V name) = ""
      · simpa [collectErrors, he] using ih
      · intro p hp
        simp [collectErrors, he] at hp
        rcases hp with hp | hp
        · simp [hp, he]
        · exact ih p hp

/-! ### Demo rules and values (the example of the hook documentation),
used to instantiate the theorems on concrete inputs. -/

/-- Demo required-check rule: message when the value is falsy/empty. -/
def requiredRule : Rule := fun v => if v.truthy then "" else "Field is required"

/-- Demo minimum-length rule on string values. -/
def minLenRule : Rule := fun v =>
  match v with
  | .str s => if s.length < 2 then "Must be at least 2 characters" else ""
  | _ => ""

/-- Demo rule registry: one field with a required-check first and a length
check second. -/
def demoRules : Rules := [("name", [requiredRule, minLenRule])]

/-- Demo values satisfying the demo rules. -/
def demoVals : Values := [("name", Value.str "Jo")]

/-! ### Claim theorems -/

/-- C1: `validateField` returns the empty string for a field with no entry
in `validationRules`; for a registered field it evaluates the rule list in
declared order and returns the result of the first rule returning a
non-empty string — independent of every later rule — and the empty string
when every rule returns empty.  In particular, when the first rule is a
required-check that fires on an empty value, its message is the result
regardless of the outcomes of the later rules. -/
theorem validateField_spec (validationRules : Rules) (name : String) (v : Value) :
    (getKey validationRules name = none → validateField validationRules name v = "") ∧
    (∀ rules, getKey validationRules name = some rules →
      ((∀ r ∈ rules, r v = "") → validateField validationRules name v = "") ∧
      (∀ l₁ r l₂, rules = l₁ ++ r :: l₂ → (∀ r₀ ∈ l₁, r₀ v = "") → r v ≠ "" →
        validateField validationRules name v = r v)) := by
  constructor
  · intro h
    simp [validateField, h]
  · intro rules hr
    constructor
    · intro hall
      simp [validateField, hr, firstError_of_all_empty rules v hall]
    · intro l₁ r l₂ heq h₁ hne
      simp [validateField, hr, heq, firstError_first_nonempty l₁ r l₂ v h₁ hne]

/-- Witness for C1: on the demo rules the empty string fails the leading
required-check, so its message is returned regardless of the later
length rule. -/
theorem validateField_spec_witness :
    getKey demoRules "name" = some [requiredRule, minLenRule] ∧
    requiredRule (Value.str "") ≠ "" ∧
    validateField demoRules "name" (Value.str "") = "Field is required" := by
  refine ⟨rfl, by simp [requiredRule, Value.truthy], ?_⟩
  have h := ((validateField_spec demoRules "name" (Value.str "")).2
      [requiredRule, minLenRule] rfl).2 [] requiredRule [minLenRule] rfl
      (by simp) (by simp [requiredRule, Value.truthy])
  simpa [requiredRule, Value.truthy] using h

/-- C3: the updater returned by `handleChange(f)` stores the extracted
value (the checked flag of a checkbox-typed event target, the file
collection of a file-typed target, the string value of every other event
target, and the payload itself for a raw value), marks the field touched,
sets `isDirty`, and stores `validateField(f, extractedValue)` as the
error of the field. -/
theorem handleChange_spec (R : Rules) (name : String) (s : FormState) :
    (∀ t : EventTarget, t.type = "checkbox" →
        getKey (handleChange R name (.event t) s).values name = some (.bool t.checked)) ∧
    (∀ t : EventTarget, t.type = "file" →
        getKey (handleChange R name (.event t) s).values name = some (.files t.files)) ∧
    (∀ t : EventTarget, t.type ≠ "checkbox" → t.type ≠ "file" →
        getKey (handleChange R name (.event t) s).values name = some (.str t.value)) ∧
    (∀ v : Value, getKey (handleChange R name (.raw v) s).values name = some v) ∧
    (∀ p : ChangePayload,
        getKey (handleChange R name p s).touched name = some true ∧
        (handleChange R name p s).isDirty = true ∧
        getKey (handleChange R name p s).errors name =
          some (validateField R name (extractValue p))) := by
  refine ⟨?_, ?_, ?_, ?_, ?_⟩
  · intro t ht
    simp [handleChange, extractValue, ht, getKey_setKey_self]
  · intro t ht
    simp [handleChange, extractValue, ht, getKey_setKey_self]
  · intro t h₁ h₂
    simp [handleChange, extractValue, h₁, h₂, getKey_setKey_self]
  · intro v
    simp [handleChange, extractValue, getKey_setKey_self]
  · intro p
    exact ⟨by simp [handleChange, getKey_setKey_self],
           rfl,
           by simp [handleChange, getKey_setKey_self]⟩

/-- Witness for C3 at concrete payloads: a checkbox event stores the
checked flag, a text event stores its string value, and the stored error
is the recomputed validation result. -/
theorem handleChange_spec_witness :
    getKey (handleChange demoRules "name"
        (ChangePayload.event ⟨"checkbox", true, [], ""⟩) (initState demoVals)).values
        "name" = some (Value.bool true) ∧
    getKey (handleChange demoRules "name"
        (ChangePayload.event ⟨"text", false, [], "J"⟩) (initState demoVals)).values
        "name" = some (Value.str "J") ∧
    getKey (handleChange demoRules "name"
        (ChangePayload.event ⟨"text", false, [], "J"⟩) (initState demoVals)).touched
        "name" = some true := by
  refine ⟨?_, ?_, ?_⟩
  · exact (handleChange_spec demoRules "name" (initState demoVals)).1
      ⟨"checkbox", true, [], ""⟩ rfl
  · exact (handleChange_spec demoRules "name" (initState demoVals)).2.2.1
      ⟨"text", false, [], "J"⟩ (by decide) (by decide)
  · exact ((handleChange_spec demoRules "name" (initState demoVals)).2.2.2.2
      (ChangePayload.event ⟨"text", false, [], "J"⟩)).1

/-- C4: `validateAll()` marks every field registered in `validationRules`
as touched, recomputes the error of every such field from the current
values, and returns true iff the resulting error mapping has no non-empty
entries — equivalently, it returns false iff at least one registered field
currently fails its rules. -/
theorem validateAll_spec (R : Rules) (s : FormState) :
    (∀ f, (getKey R f).isSome → getKey (validateAll R s).2.touched f = some true) ∧
    (∀ f, (getKey R f).isSome →
        getKey (validateAll R s).2.errors f =
          (if validateField R f (valuesGet s.values f) = "" then none
           else some (validateField R f (valuesGet s.values f)))) ∧
    ((validateAll R s).1 = true ↔ ∀ p ∈ (validateAll R s).2.errors, p.2 = "") ∧
    ((validateAll R s).1 = false ↔
        ∃ p ∈ R, validateField R p.1 (valuesGet s.values p.1) ≠ "") := by
  refine ⟨?_, ?_, ?_, ?_⟩
  · intro f hf
    simp [validateAll, getKey_map_const]
    rcases Option.isSome_iff_exists.mp hf with ⟨rs, hrs⟩
    simp [hrs]
  · intro f hf
    simp only [validateAll]
    rw [collectErrors_getKey]
    by_cases he : validateField R f (valuesGet s.values f) = "" <;> simp [hf, he]
  · constructor
    · intro h p hp
      simp [validateAll, List.isEmpty_iff] at h
      simp [validateAll, h] at hp
    · intro h
      simp [validateAll, List.isEmpty_iff]
      by_contra hne
      rcases List.exists_mem_of_ne_nil _ hne with ⟨p, hp⟩
      exact collectErrors_mem_ne R s.values R p (by simpa [validateAll] using hp)
        (h p (by simpa [validateAll] using hp))
  · constructor
    · intro h
      simp [validateAll, List.isEmpty_iff] at h
      have := (not_iff_not.mpr (collectErrors_eq_nil_iff R s.values R)).mp h
      push_neg at this
      rcases this with ⟨p, hp, hne⟩
      exact ⟨p, hp, hne⟩
    · intro ⟨p, hp, hne⟩
      simp [validateAll, List.isEmpty_iff]
      intro hnil
      exact hne ((collectErrors_eq_nil_iff R s.values R).mp hnil p hp)

/-- Witness for C4: on the demo rules with an empty stored value the
required-check fails, so `validateAll` reports the field touched, stores
its message, and returns false. -/
theorem validateAll_spec_witness :
    getKey (validateAll demoRules (initState [("name", Value.str "")])).2.touched
      "name" = some true ∧
    getKey (validateAll demoRules (initState [("name", Value.str "")])).2.errors
      "name" = some "Field is required" ∧
    (validateAll demoRules (initState [("name", Value.str "")])).1 = false := by
  have hs := validateAll_spec demoRules (initState [("name", Value.str "")])
  refine ⟨hs.1 "name" (by rfl), ?_, ?_⟩
  · have h := hs.2.1 "name" (by rfl)
    exact h.trans (by simp [validateField, getKey, firstError, valuesGet,
      requiredRule, minLenRule, Value.truthy, demoRules, initState])
  · apply hs.2.2.2.mpr
    refine ⟨("name", [requiredRule, minLenRule]), by simp [demoRules], ?_⟩
    simp [validateField, getKey, firstError, valuesGet, requiredRule, minLenRule,
      Value.truthy, demoRules, initState]

/-- C10: every `validateAll()` call — also the one inside `handleSubmit` —
rebuilds `touched` as exactly the mapping assigning true to the fields of
`validationRules` (no other keys) and rebuilds `errors` with entries for
exactly the registered fields whose rules currently fail, discarding any
previously stored touched flag or error for any other field. -/
theorem validateAll_rebuild (R : Rules) (o : Except String Unit) (s : FormState) :
    (validateAll R s).2.touched = R.map (fun p => (p.1, true)) ∧
    (∀ f, getKey (validateAll R s).2.touched f =
        (if (getKey R f).isSome then some true else none)) ∧
    (∀ f e, getKey (validateAll R s).2.errors f = some e ↔
        ((getKey R f).isSome ∧ e = validateField R f (valuesGet s.values f) ∧
          e ≠ "")) ∧
    (handleSubmitRun R o s).finalState.touched = R.map (fun p => (p.1, true)) ∧
    (handleSubmitRun R o s).finalState.errors = (validateAll R s).2.errors := by
  refine ⟨rfl, ?_, ?_, rfl, rfl⟩
  · intro f
    simp only [validateAll, getKey_map_const]
    by_cases hf : (getKey R f).isSome
    · rcases Option.isSome_iff_exists.mp hf with ⟨rs, hrs⟩
      simp [hrs]
    · simp [Option.not_isSome_iff_eq_none.mp hf, hf]
  · intro f e
    simp only [validateAll]
    rw [collectErrors_getKey]
    by_cases hf : (getKey R f).isSome
    · by_cases he : validateField R f (valuesGet s.values f) = ""
      · simp [hf, he]
      · simp [hf, he]
        constructor
        · intro h
          exact ⟨h.symm, fun hc => he (h.trans hc)⟩
        · intro h
          exact h.1.symm
    · simp [hf]

/-- C2: the handler returned by `handleSubmit(onSubmit)` invokes the
callback iff `validateAll()` returns true, and then exactly once with the
current values mapping; starting from a non-submitting state the
`isSubmitting` flag transitions false, true, false over the invocation;
and the final state keeps the prior `values` and `isDirty` — no automatic
reset happens. -/
theorem handleSubmit_spec (R : Rules) (o : Except String Unit) (s : FormState)
    (h : s.isSubmitting = false) :
    (handleSubmitRun R o s).calls =
      (if (collectErrors R s.values R).isEmpty then [s.values] else []) ∧
    ((handleSubmitRun R o s).calls ≠ [] ↔ (validateAll R s).1 = true) ∧
    (handleSubmitRun R o s).submittingTrace = [false, true, false] ∧
    (handleSubmitRun R o s).finalState.isSubmitting = false ∧
    (handleSubmitRun R o s).finalState.values = s.values ∧
    (handleSubmitRun R o s).finalState.isDirty = s.isDirty := by
  refine ⟨?_, ?_, ?_, rfl, rfl, rfl⟩
  · simp [handleSubmitRun, validateAll]
  · by_cases hv : (collectErrors R s.values R).isEmpty <;>
      simp [handleSubmitRun, validateAll, hv]
  · simp [handleSubmitRun, h]

/-- Witness for C2: submitting the valid demo state invokes the callback
once with the current values and traces `isSubmitting` false, true,
false. -/
theorem handleSubmit_spec_witness :
    (initState demoVals).isSubmitting = false ∧
    (handleSubmitRun demoRules (Except.ok ()) (initState demoVals)).calls =
      [demoVals] ∧
    (handleSubmitRun demoRules (Except.ok ())
        (initState demoVals)).submittingTrace = [false, true, false] := by
  have hs := handleSubmit_spec demoRules (Except.ok ()) (initState demoVals) rfl
  refine ⟨rfl, ?_, hs.2.2.1⟩
  have hcalls := hs.1
  simpa [collectErrors, validateField, getKey, firstError, valuesGet, requiredRule,
    minLenRule, Value.truthy, demoRules, demoVals, initState] using hcalls

/-- C5: a failure raised by the submit callback is caught at the handler
boundary — it is logged, never re-raised to the caller of the handler, it
changes no field error (the final state is the same as for a succeeding
callback, with `errors` exactly the `validateAll` result), and
`isSubmitting` is still cleared afterwards. -/
theorem handleSubmit_failure_swallowed (R : Rules) (s : FormState) (e : String) :
    (handleSubmitRun R (Except.error e) s).raised = false ∧
    (handleSubmitRun R (Except.error e) s).finalState =
      (handleSubmitRun R (Except.ok ()) s).finalState ∧
    (handleSubmitRun R (Except.error e) s).finalState.isSubmitting = false ∧
    (handleSubmitRun R (Except.error e) s).finalState.errors =
      (validateAll R s).2.errors := by
  refine ⟨?_, rfl, rfl, rfl⟩
  by_cases hv : (collectErrors R s.values R).isEmpty <;>
    simp [handleSubmitRun, validateAll, tryCatchSwallow, hv]

/-- Counterexample to C6: in the richer hook variant, a touched field with
an empty error but a falsy stored value (here the empty string, after
blurring a rule-less field) yields the neutral state `""`, not
`"success"` as the claim demands. -/
theorem getFieldState_claim_counterexample :
    ((getKey (handleBlur [] "a" (initState [("a", Value.str "")])).touched
        "a").getD false = true) ∧
    ((getKey (handleBlur [] "a" (initState [("a", Value.str "")])).errors
        "a").getD "" = "") ∧
    getFieldState (handleBlur [] "a" (initState [("a", Value.str "")])) "a" ≠
      "success" ∧
    getFieldState (handleBlur [] "a" (initState [("a", Value.str "")])) "a" =
      "" := by
  decide

/-- C6 (amended): `getFieldState(f)` returns neutral when `touched[f]` is
falsy, else `"error"` when `errors[f]` is non-empty; in the remaining case
the second hook variant returns `"success"` unconditionally, while the
richer variant (`src/hooks/useFormValidation.js`) returns `"success"` only
when `values[f]` is truthy and neutral (`""`) otherwise. -/
theorem getFieldState_spec (s : FormState) (f : String) :
    ((getKey s.touched f).getD false = false →
        getFieldState s f = "" ∧ getFieldState003 s f = "neutral") ∧
    ((getKey s.touched f).getD false = true → (getKey s.errors f).getD "" ≠ "" →
        getFieldState s f = "error" ∧ getFieldState003 s f = "error") ∧
    ((getKey s.touched f).getD false = true → (getKey s.errors f).getD "" = "" →
        getFieldState003 s f = "success" ∧
        getFieldState s f =
          (if (valuesGet s.values f).truthy then "success" else "")) := by
  refine ⟨?_, ?_, ?_⟩
  · intro ht
    simp [getFieldState, getFieldState003, ht]
  · intro ht he
    simp [getFieldState, getFieldState003, ht, he]
  · intro ht he
    simp [getFieldState, getFieldState003, ht, he]

/-- Witness for C6 (amended): after blurring the valid demo field the
field is touched with an empty error and a truthy value, and both variants
report success. -/
theorem getFieldState_spec_witness :
    getFieldState003 (handleBlur demoRules "name" (initState demoVals)) "name" =
      "success" ∧
    getFieldState (handleBlur demoRules "name" (initState demoVals)) "name" =
      "success" := by
  have h := (getFieldState_spec (handleBlur demoRules "name" (initState demoVals))
      "name").2.2 (by decide) (by decide)
  exact ⟨h.1, h.2.trans (by decide)⟩

/-- Counterexample to C7: `handleChange` on a field with no registered
rules marks it touched with an empty error, after which `getFieldState`
reports `"success"` in both hook variants — not neutral as the claim
demands for every reachable state. -/
theorem unregistered_neutral_counterexample :
    getKey ([] : Rules) "nick" = none ∧
    getFieldState (handleChange [] "nick" (ChangePayload.raw (Value.str "hi"))
        (initState [])) "nick" = "success" ∧
    getFieldState003 (handleChange [] "nick" (ChangePayload.raw (Value.str "hi"))
        (initState [])) "nick" = "success" := by
  refine ⟨rfl, ?_, ?_⟩ <;> decide

/-- C7 (amended): for a field `f` with no entry in `validationRules`,
`validateField(f, v)` returns empty for every value `v`, and any error the
controller itself stores for `f` on change or blur is the empty string;
`getFieldState(f)` is neutral in every state in which `f` is untouched,
and a full-form validation pass leaves `f` untouched and error-free, hence
neutral.  After `handleChange(f)` or `handleBlur(f)`, however, `f` is
touched, so `getFieldState(f)` reports success rather than neutral. -/
theorem unregistered_field_spec (R : Rules) (f : String)
    (h : getKey R f = none) :
    (∀ v, validateField R f v = "") ∧
    (∀ s, (getKey s.touched f).getD false = false →
        getFieldState s f = "" ∧ getFieldState003 s f = "neutral") ∧
    (∀ s, getKey (validateAll R s).2.touched f = none ∧
        getKey (validateAll R s).2.errors f = none ∧
        getFieldState (validateAll R s).2 f = "" ∧
        getFieldState003 (validateAll R s).2 f = "neutral") ∧
    (∀ s p, getKey (handleChange R f p s).errors f = some "" ∧
        getKey (handleChange R f p s).touched f = some true) ∧
    (∀ s, getKey (handleBlur R f s).errors f = some "") := by
  have hvf : ∀ v, validateField R f v = "" := by
    intro v
    simp [validateField, h]
  have htch : ∀ s : FormState, getKey (validateAll R s).2.touched f = none := by
    intro s
    simp [validateAll, getKey_map_const, h]
  refine ⟨hvf, ?_, ?_, ?_, ?_⟩
  · intro s ht
    simp [getFieldState, getFieldState003, ht]
  · intro s
    refine ⟨htch s, ?_, ?_, ?_⟩
    · simp only [validateAll]
      rw [collectErrors_getKey]
      simp [h]
    · simp [getFieldState, htch s]
    · simp [getFieldState003, htch s]
  · intro s p
    simp [handleChange, getKey_setKey_self, hvf]
  · intro s
    simp [handleBlur, getKey_setKey_self, hvf]

/-- Witness for C7 (amended): the field `nick` is not registered in the
demo rules; it validates empty, stays neutral across a full-form
validation pass, and gets an empty error entry on change. -/
theorem unregistered_field_spec_witness :
    validateField demoRules "nick" (Value.str "x") = "" ∧
    getFieldState003 (validateAll demoRules (initState demoVals)).2 "nick" =
      "neutral" ∧
    getKey (handleChange demoRules "nick" (ChangePayload.raw (Value.str "hi"))
        (initState demoVals)).errors "nick" = some "" := by
  have h := unregistered_field_spec demoRules "nick" (by rfl)
  exact ⟨h.1 (Value.str "x"), (h.2.2.1 (initState demoVals)).2.2.2,
    (h.2.2.2.1 (initState demoVals) (ChangePayload.raw (Value.str "hi"))).1⟩

/-- C8: `reset()` restores `values` to the construction-time
`initialValues` (structurally equal to the originally supplied object),
clears `errors` and `touched` to empty mappings and clears `isSubmitting`
and `isDirty`, and its result is the same regardless of the prior state. -/
theorem reset_spec (initialValues : Values) (s : FormState) :
    (reset initialValues s).values = initialValues ∧
    (reset initialValues s).errors = [] ∧
    (reset initialValues s).touched = [] ∧
    (reset initialValues s).isSubmitting = false ∧
    (reset initialValues s).isDirty = false ∧
    reset initialValues s = reset initialValues (initState initialValues) :=
  ⟨rfl, rfl, rfl, rfl, rfl, rfl⟩

/-- C9: `setFieldValue(f, v)` stores the value and sets `isDirty` while
leaving `errors`, `touched` and `isSubmitting` unchanged (no validation is
re-run); `setFieldError(f, m)` stores the message and marks the field
touched while leaving `values`, `isDirty` and `isSubmitting` unchanged. -/
theorem setField_spec (name : String) (v : Value) (m : String) (s : FormState) :
    getKey (setFieldValue name v s).values name = some v ∧
    (setFieldValue name v s).isDirty = true ∧
    (setFieldValue name v s).errors = s.errors ∧
    (setFieldValue name v s).touched = s.touched ∧
    (setFieldValue name v s).isSubmitting = s.isSubmitting ∧
    getKey (setFieldError name m s).errors name = some m ∧
    getKey (setFieldError name m s).touched name = some true ∧
    (setFieldError name m s).values = s.values ∧
    (setFieldError name m s).isDirty = s.isDirty ∧
    (setFieldError name m s).isSubmitting = s.isSubmitting :=
  ⟨getKey_setKey_self s.values name v, rfl, rfl, rfl, rfl,
   getKey_setKey_self s.errors name m, getKey_setKey_self s.touched name true,
   rfl, rfl, rfl⟩
